import Mathlib

/-!
Shallow embedding of `unit_to_srv.py` (a converter from systemd unit files
to dinit service files) and theorems checking the specification's claims
against it.

Modelling conventions:
* Python strings are Lean `String`s; character-by-character loops walk
  `String.data` (in this toolchain a `String` is a structure holding a
  `List Char`).
* Python floats are modelled as rationals (`ℚ`); every value the claims
  exercise is integral, where float and rational arithmetic agree exactly.
* `str.isnumeric` / `str.isdigit` / `str.isalpha` are modelled by the ASCII
  predicates `Char.isDigit` / `Char.isAlpha`; the claims only involve ASCII
  input, where the Python predicates agree with these.
* A call to `float()` on a non-numeric string raises `ValueError` in Python;
  this is modelled by `Option`, `none` standing for the raised exception.
* Each `target.write` of one output line is modelled by appending one
  structured `OutLine` value holding exactly the data interpolated into the
  written line. Both ways the program can die mid-run are modelled by a
  `Halt` outcome that stops the translation fold before anything further is
  written: `os._exit(1)` on `Type=dbus`, and the uncaught `ValueError` that
  `float('')` raises inside `parse_time` (modelled as `parse_time = none`)
  when a recognized unit tag has an empty magnitude, which propagates out of
  the `StartLimitIntervalSec` and `Timeout*Sec` arms before their write.
-/

namespace UnitToSrv

/-- A parsed `(key, value)` pair from the unit file (`values` entries). -/
abbrev Pair := String × String

/-- `systemd_ref_map` from the source: the list of recognized unit keys.
Note the spelling "Upholds" (lower-case h), exactly as in the source. -/
def systemd_ref_map : List String :=
  ["Documentation", "Type", "Description", "Wants", "Requires", "Requisite",
   "BindsTo", "PartOf", "Upholds", "Before", "After", "OnSuccess",
   "StartLimitBurst", "StartLimitIntervalSec", "Alias", "WantedBy",
   "RequiredBy", "UpheldBy", "PIDFile", "ExecStart", "ExecStop",
   "TimeoutStartSec", "TimeoutStopSec", "TimeoutSec", "Restart",
   "EnvironmentFile", "User", "Group", "WorkingDirectory", "LimitCORE",
   "LimitDATA", "LimitNOFILE", "UtmpIdentifier", "KillSignal"]

/-- Python `str.strip()` on a character list: drop whitespace from both ends. -/
def stripList (l : List Char) : List Char :=
  ((l.dropWhile Char.isWhitespace).reverse.dropWhile Char.isWhitespace).reverse

/-- The numeric value of a digit string (helper for `pyFloat`). -/
def natOfDigits (l : List Char) : Nat :=
  l.foldl (fun n c => 10 * n + (c.toNat - 48)) 0

/-- Python `float()` restricted to digit strings, the only shape that reaches
it in this program (`mem` accumulates only characters passing `isnumeric`).
`none` models the `ValueError` raised on other inputs (such as `""`). -/
def pyFloat (s : String) : Option ℚ :=
  if s.data ≠ [] ∧ s.data.all Char.isDigit then some ((natOfDigits s.data : ℚ)) else none

/-- Python `str.split(sep)` semantics (keeps empty fields; `"".split(" ") = [""]`). -/
def pySplit (sep : Char) : List Char → List (List Char)
  | [] => [[]]
  | c :: rest =>
    match pySplit sep rest with
    | [] => [[]]
    | t :: ts => if c = sep then [] :: t :: ts else (c :: t) :: ts

/-- Python `val.split(" ")` on a string. -/
def pySplitSp (s : String) : List String := (pySplit ' ' s.data).map String.mk

/-- Python `str.isnumeric()` (ASCII fragment): nonempty and all digits. -/
def isnumeric (s : String) : Bool := !s.data.isEmpty && s.data.all Char.isDigit

/-- The result of `parse_time`: the original string when the input was purely
numeric (the function returns `time` unchanged), otherwise the accumulated
second count `sec` (a number). -/
inductive PTResult where
  | str (s : String)
  | num (q : ℚ)
deriving DecidableEq, Repr

/-- The character scan of `parse_time`: walks the input accumulating a digit
string `mem` and a letter string `what`; a digit arriving while `letter` is
set closes the current `(what.strip(), mem.strip())` entry into `times`
(without resetting `mem` — exactly as in the source, where `mem += ch` keeps
the previous digits). Returns the final `times` list (with the last entry
appended) together with the final value of `mem`, which the conversion loop
below uses. -/
def timeScan : List Char → List Char → List Char → Bool →
    List (String × String) → List (String × String) × String
  | [], mem, what, _, times =>
    (times ++ [(String.mk (stripList what), String.mk (stripList mem))], String.mk mem)
  | ch :: rest, mem, what, letter, times =>
    if ch = ' ' then timeScan rest mem what letter times
    else if ch.isDigit then
      if letter = false then timeScan rest (mem ++ [ch]) what letter times
      else timeScan rest (mem ++ [ch]) [] false
        (times ++ [(String.mk (stripList what), String.mk (stripList mem))])
    else if ch.isAlpha then timeScan rest mem (what ++ [ch]) true times
    else timeScan rest mem what letter times

/-- One iteration of the conversion loop of `parse_time`: `sec` is threaded
through; for a recognized unit tag the source adds `float(mem)` (note: the
final leftover `mem`, not the entry's own magnitude `item[1]`) scaled by the
unit factor; an unrecognized tag only warns and leaves `sec` unchanged. -/
def convStep (mem : String) (sec : Option ℚ) (item : String × String) : Option ℚ :=
  match sec with
  | none => none
  | some s =>
    match item.1 with
    | "μs" | "us" | "usec" => (pyFloat mem).map (fun m => s + m / 1000000)
    | "ms" | "msec" => (pyFloat mem).map (fun m => s + m / 1000)
    | "s" | "sec" | "second" | "seconds" => (pyFloat mem).map (fun m => s + m)
    | "m" | "min" | "minute" | "minutes" => (pyFloat mem).map (fun m => s + m * 60)
    | "h" | "hr" | "hour" | "hours" => (pyFloat mem).map (fun m => s + m * 3600)
    | "d" | "day" | "days" => (pyFloat mem).map (fun m => s + m * 86400)
    | "w" | "week" | "weeks" => (pyFloat mem).map (fun m => s + m * 604800)
    | "M" | "month" | "months" => (pyFloat mem).map (fun m => s + m * 2592000)
    | "y" | "year" | "years" => (pyFloat mem).map (fun m => s + m * 31536000)
    | _ => some s

/-- `parse_time` from the source: purely numeric input is returned unchanged;
otherwise the input is scanned into `(tag, magnitude)` entries and the
conversion loop sums the contributions (using `float(mem)`, see `convStep`). -/
def parse_time (time : String) : Option PTResult :=
  if time.data ≠ [] ∧ time.data.all Char.isDigit then some (.str time)
  else
    let tm := timeScan time.data [] [] false []
    (tm.1.foldl (convStep tm.2) (some 0)).map PTResult.num

/-- The per-line character scan of the unit-file reading loop: every `=`
moves the accumulated `memory` into `name` and resets `memory`, so after the
whole line `name` holds the text between the last two `=` characters and
`memory` the text after the last `=`. -/
def lineScan : List Char → List Char → List Char → List Char × List Char
  | [], name, memory => (name, memory)
  | ch :: rest, name, memory =>
    if ch = '=' then lineScan rest memory []
    else lineScan rest name (memory ++ [ch])

/-- The unit-file reading loop: classify each line (comment / section /
key-value), producing the `comments` and `values` lists. Lines are the raw
file lines, trailing newline included, as Python's file iteration yields
them (never empty, so the `[]` case below is unreachable for real input). -/
def readUnit (lines : List String) : List String × List Pair :=
  lines.foldl (fun acc line =>
    match line.data with
    | [] => acc
    | c :: _ =>
      if c = '#' ∨ c = ';' then
        (acc.1 ++ ["In systemd service unit comment: " ++ line], acc.2)
      else if c = '[' then acc
      else
        let (name, memory) := lineScan line.data [] []
        if name ≠ [] then
          (acc.1, acc.2 ++ [(String.mk (stripList name), String.mk (stripList memory))])
        else acc) ([], [])

/-- How a run of the translation loop can die before completing: `exit` is
`os._exit(1)` (the `Type=dbus` arm); `valueError` is the uncaught exception
raised by `float('')` inside `parse_time` and propagating out of the
`StartLimitIntervalSec` / `Timeout*Sec` arms, killing the whole program. -/
inductive Halt where
  | exit
  | valueError
deriving DecidableEq, Repr

/-- A resolved signal value: one of the ten fixed symbolic names, or a
numeric value found in the process-wide signal table. -/
inductive SigV where
  | sym (s : String)
  | num (n : Nat)
deriving DecidableEq, Repr

/-- One line written to the target file, holding exactly the data the source
interpolates into that line (e.g. `.command v` is `command = {v}\n`). -/
inductive OutLine where
  | description (v : String)
  | typeLine (v : String)
  | command (v : String)
  | stopCommand (v : String)
  | waitsFor (v : String)
  | dependsOn (v : String)
  | dependsMs (v : String)
  | beforeLine (v : String)
  | afterLine (v : String)
  | chainTo (v : String)
  | restartLimitCount (v : String)
  | restartLimitInterval (t : PTResult)
  | pidFile (v : String)
  | envFile (v : String)
  | restartLine (v : String)
  | startTimeout (t : PTResult)
  | stopTimeout (t : PTResult)
  | runAs (v : String)
  | workingDir (v : String)
  | rlimitCore (v : String)
  | rlimitNofile (v : String)
  | rlimitData (v : String)
  | inittabLine (v : String)
  | termSignal (sg : SigV)
  | commentLine (v : String)
  | missingPidWarning
deriving DecidableEq, Repr

/-- Modelled from the spec: the process-wide signal-name table
(`signal.Signals`) comes from the host platform, not from this repository;
we model the standard Linux x86-64 set. No claim exercises this table. -/
def pySignals : List (String × Nat) :=
  [("SIGHUP", 1), ("SIGINT", 2), ("SIGQUIT", 3), ("SIGILL", 4), ("SIGTRAP", 5),
   ("SIGABRT", 6), ("SIGBUS", 7), ("SIGFPE", 8), ("SIGKILL", 9), ("SIGUSR1", 10),
   ("SIGSEGV", 11), ("SIGUSR2", 12), ("SIGPIPE", 13), ("SIGALRM", 14),
   ("SIGTERM", 15), ("SIGSTKFLT", 16), ("SIGCHLD", 17), ("SIGCONT", 18),
   ("SIGSTOP", 19), ("SIGTSTP", 20), ("SIGTTIN", 21), ("SIGTTOU", 22),
   ("SIGURG", 23), ("SIGXCPU", 24), ("SIGXFSZ", 25), ("SIGVTALRM", 26),
   ("SIGPROF", 27), ("SIGWINCH", 28), ("SIGIO", 29), ("SIGPWR", 30), ("SIGSYS", 31)]

/-- The mutable state threaded through the translation loop: the pid-file
tri-state (`0`: not bgprocess, `1`: bgprocess without pid-file, `2`: correct
bgprocess), the `has_type` flag, the lines written to the target so far, and
the auxiliary `(filename, content)` files created by the `Alias` rule. -/
structure TState where
  is_pidfile : Nat
  has_type : Bool
  out : List OutLine
  aliases : List (String × String)
deriving DecidableEq, Repr

/-- The initial translation state. -/
def initState : TState := ⟨0, false, [], []⟩

/-- Append output lines to the state (a `target.write` call). -/
def pushOut (st : TState) (ls : List OutLine) : TState :=
  ⟨st.is_pidfile, st.has_type, st.out ++ ls, st.aliases⟩

/-- The `STR` computation of the `User` case: start from the user value and
scan the whole `values` list, overwriting `STR` with `{user}:{group}` at
every `Group` entry (so the last `Group` in file order wins). -/
def userStr (u : String) (values : List Pair) : String :=
  values.foldl (fun STR grp => if grp.1 = "Group" then u ++ ":" ++ grp.2 else STR) u

/-- One iteration of the translation loop (`for val in values`): membership
check against `systemd_ref_map`, then the per-key dispatch, written as the
equivalent chain of string-equality tests. Returns the new state and an
optional `Halt`: `some .exit` on the `Type=dbus` arm (`os._exit(1)`), and
`some .valueError` when `parse_time` raises in the `StartLimitIntervalSec`
or `Timeout*Sec` arms — the exception fires while the f-string argument is
evaluated, before the write, so those arms write nothing when they halt.
Warnings and `print`s go to the operator, not the target file, and so add
no output line. -/
def emitPair (uf : String) (values : List Pair) (st : TState) (val : Pair) :
    TState × Option Halt :=
  if val.1 ∉ systemd_ref_map then (st, none)
  else if val.1 = "Documentation" then (st, none)
  else if val.1 = "Description" then (pushOut st [.description val.2], none)
  else if val.1 = "Type" then
    -- the dbus arm exits before `has_type = True` is reached
    if val.2 = "dbus" then (st, some .exit)
    else
      let o :=
        if val.2 = "simple" ∨ val.2 = "exec" then st.out ++ [OutLine.typeLine "process"]
        else if val.2 = "forking" then st.out ++ [OutLine.typeLine "bgprocess"]
        else if val.2 = "oneshot" then st.out ++ [OutLine.typeLine "scripted"]
        else if val.2 = "notify" then st.out ++ [OutLine.typeLine "process"]
        else st.out
      let pf := if val.2 = "forking" then 1 else st.is_pidfile
      -- `has_type = True` runs after the inner match for every non-exiting value
      (⟨pf, true, o, st.aliases⟩, none)
  else if val.1 = "ExecStart" then (pushOut st [.command val.2], none)
  else if val.1 = "ExecStop" then (pushOut st [.stopCommand val.2], none)
  else if val.1 = "Wants" ∨ val.1 = "UpHolds" then
    (pushOut st ((pySplitSp val.2).map OutLine.waitsFor), none)
  else if val.1 = "Requires" ∨ val.1 = "Requisite" ∨ val.1 = "BindsTo" ∨ val.1 = "PartOf" then
    (pushOut st ((pySplitSp val.2).map OutLine.dependsOn), none)
  else if val.1 = "WantedBy" ∨ val.1 = "RequiredBy" ∨ val.1 = "UpheldBy" then
    (pushOut st ((pySplitSp val.2).map OutLine.dependsMs), none)
  else if val.1 = "Before" then
    (pushOut st ((pySplitSp val.2).map OutLine.beforeLine), none)
  else if val.1 = "After" then
    (pushOut st ((pySplitSp val.2).map OutLine.afterLine), none)
  else if val.1 = "Alias" then
    (⟨st.is_pidfile, st.has_type, st.out,
      st.aliases ++ (pySplitSp val.2).map
        (fun a => (a, "depends-on = " ++ uf ++ ".dinit\n"))⟩, none)
  else if val.1 = "OnSuccess" then
    -- the loop writes `chain-to = {val[1]}` (the whole value) once per token
    (pushOut st ((pySplitSp val.2).map (fun _ => OutLine.chainTo val.2)), none)
  else if val.1 = "StartLimitBurst" then (pushOut st [.restartLimitCount val.2], none)
  else if val.1 = "StartLimitIntervalSec" then
    -- `parse_time` is evaluated inside the f-string; if it raises, nothing
    -- is written and the exception kills the program
    match parse_time val.2 with
    | none => (st, some .valueError)
    | some t => (pushOut st [.restartLimitInterval t], none)
  else if val.1 = "PIDFile" then
    (⟨2, st.has_type, st.out ++ [OutLine.pidFile val.2], st.aliases⟩, none)
  else if val.1 = "EnvironmentFile" then (pushOut st [.envFile val.2], none)
  else if val.1 = "Restart" then
    (pushOut st [if val.2 = "no" then OutLine.restartLine "no" else OutLine.restartLine "yes"],
     none)
  else if val.1 = "TimeoutStartSec" ∨ val.1 = "TimeoutStopSec" ∨ val.1 = "TimeoutSec" then
    -- `TIME = parse_time(val[1])` runs before any write; a raise here kills
    -- the program with nothing written for this pair
    match (if val.2 = "infinity" then some (PTResult.num 0) else parse_time val.2) with
    | none => (st, some .valueError)
    | some TIME =>
      if val.1 = "TimeoutSec" then (pushOut st [.startTimeout TIME, .stopTimeout TIME], none)
      -- the source tests `"Start" in val[0]`; among the keys reaching this
      -- branch that substring test holds exactly for "TimeoutStartSec"
      else if val.1 = "TimeoutStartSec" then (pushOut st [.startTimeout TIME], none)
      else (pushOut st [.stopTimeout TIME], none)
  else if val.1 = "User" then (pushOut st [.runAs (userStr val.2 values)], none)
  else if val.1 = "Group" then (st, none)
  else if val.1 = "WorkingDirectory" then (pushOut st [.workingDir val.2], none)
  else if val.1 = "LimitCORE" then (pushOut st [.rlimitCore val.2], none)
  else if val.1 = "LimitNOFILE" then (pushOut st [.rlimitNofile val.2], none)
  else if val.1 = "LimitDATA" then (pushOut st [.rlimitData val.2], none)
  else if val.1 = "UtmpIdentifier" then (pushOut st [.inittabLine val.2], none)
  else if val.1 = "KillSignal" then
    let stripped := if val.2.startsWith "SIG" then val.2.drop 3 else val.2
    let SIG : Option SigV :=
      if stripped = "HUP" then some (.sym "HUP")
      else if stripped = "INT" then some (.sym "INT")
      else if stripped = "QUIT" then some (.sym "QUIT")
      else if stripped = "KILL" then some (.sym "KILL")
      else if stripped = "USR1" then some (.sym "USR1")
      else if stripped = "USR2" then some (.sym "USR2")
      else if stripped = "TERM" then some (.sym "TERM")
      else if stripped = "CONT" then some (.sym "CONT")
      else if stripped = "STOP" then some (.sym "STOP")
      else if stripped = "INFO" then some (.sym "INFO")
      -- fallback: scan signal.Signals comparing the *unstripped* value
      else pySignals.foldl
        (fun acc ks => if val.2 = ks.1 then some (SigV.num ks.2) else acc) none
    ((pushOut st ((SIG.map OutLine.termSignal).toList)), none)
  else (st, none)

/-- The halt outcome of one translation step as a function of the pair
alone (no arm's halt behavior depends on the state or the rest of the
file): `Type=dbus` exits; a `StartLimitIntervalSec` value, or a
non-`infinity` `Timeout*Sec` value, on which `parse_time` raises (returns
`none`) aborts with the `ValueError`; every other pair continues.
`emitPair_props` proves this equals the halt component of `emitPair`. -/
def stepHalt (val : Pair) : Option Halt :=
  if val.1 ∉ systemd_ref_map then none
  else if val.1 = "Type" then (if val.2 = "dbus" then some .exit else none)
  else if val.1 = "StartLimitIntervalSec" then
    (match parse_time val.2 with
     | none => some .valueError
     | some _ => none)
  else if val.1 = "TimeoutStartSec" ∨ val.1 = "TimeoutStopSec" ∨ val.1 = "TimeoutSec" then
    (match (if val.2 = "infinity" then some (PTResult.num 0) else parse_time val.2) with
     | none => some .valueError
     | some _ => none)
  else none

/-- The translation loop over all pairs: stops (propagating the halt) when
an iteration exits or raises, otherwise threads the state through the
remaining pairs. -/
def runVals (uf : String) (values : List Pair) :
    TState → List Pair → TState × Option Halt
  | st, [] => (st, none)
  | st, v :: rest =>
    let r := emitPair uf values st v
    match r.2 with
    | some h => (r.1, some h)
    | none => runVals uf values r.1 rest

/-- The whole conversion stage: run the translation loop over `values`; on
a halt (dbus exit or uncaught ValueError) the lines written so far are all
the target received and the trailer is never reached; otherwise append the
default `type = process` when no Type key was seen, then the relocated
comments, then the missing-pid-file warning comment when the tri-state
is `1`. -/
def convert (uf : String) (comments : List String) (values : List Pair) :
    List OutLine × Option Halt :=
  match runVals uf values initState values with
  | (st, some h) => (st.out, some h)
  | (st, none) =>
    let o1 := if st.has_type then st.out else st.out ++ [OutLine.typeLine "process"]
    let o2 := o1 ++ comments.map OutLine.commentLine
    let o3 := if st.is_pidfile = 1 then o2 ++ [OutLine.missingPidWarning] else o2
    (o3, none)

/-- Does an output line come from the `run-as` write of the `User` case? -/
def isRunAs : OutLine → Bool
  | .runAs _ => true
  | _ => false

/-! ## Helper lemmas -/

/-- Mapping a non-`run-as` line constructor produces no `run-as` lines. -/
lemma filter_isRunAs_nil_of (f : String → OutLine) (hf : ∀ x, isRunAs (f x) = false)
    (l : List String) : (l.map f).filter isRunAs = [] := by
  induction l with
  | nil => rfl
  | cons a l ih => simp [List.filter_cons, hf a, ih]

/-- The optional `term-signal` line is never a `run-as` line. -/
lemma filter_isRunAs_sig (o : Option SigV) :
    ((o.map OutLine.termSignal).toList).filter isRunAs = [] := by
  cases o <;> simp [isRunAs]

set_option maxHeartbeats 2000000 in
set_option maxRecDepth 16000 in
/-- Master lemma about one translation step, by case analysis over the 34
recognized keys plus the unrecognized case: (a) the step's halt outcome is
`stepHalt` of the pair (dbus exit, or ValueError in the time arms);
(b) a non-`Type` pair leaves `has_type` unchanged; (c) a non-`Type` pair
leaves `is_pidfile` unchanged or sets it to 2 (the `PIDFile` arm); (d) the
step's `run-as` lines are exactly one `run-as = userStr` line for a `User`
pair and none otherwise. -/
lemma emitPair_props (uf : String) (vs : List Pair) (st : TState) (val : Pair) :
    ((emitPair uf vs st val).2 = stepHalt val) ∧
    (val.1 ≠ "Type" → (emitPair uf vs st val).1.has_type = st.has_type) ∧
    (val.1 ≠ "Type" →
      ((emitPair uf vs st val).1.is_pidfile = st.is_pidfile ∨
        (emitPair uf vs st val).1.is_pidfile = 2)) ∧
    ((emitPair uf vs st val).1.out.filter isRunAs
      = st.out.filter isRunAs ++
        (if val.1 = "User" then [OutLine.runAs (userStr val.2 vs)] else [])) := by
  obtain ⟨k, v⟩ := val
  by_cases hm : k ∈ systemd_ref_map
  · simp only [systemd_ref_map, List.mem_cons, List.not_mem_nil, or_false] at hm
    rcases hm with h|h|h|h|h|h|h|h|h|h|h|h|h|h|h|h|h|h|h|h|h|h|h|h|h|h|h|h|h|h|h|h|h|h
    all_goals subst h
    all_goals try
      (simp [emitPair, stepHalt, systemd_ref_map, pushOut, isRunAs, List.filter_append,
        filter_isRunAs_sig,
        show (∀ t, isRunAs (OutLine.startTimeout t) = false) from fun _ => rfl,
        show (∀ t, isRunAs (OutLine.stopTimeout t) = false) from fun _ => rfl,
        show (∀ s, isRunAs (OutLine.restartLine s) = false) from fun _ => rfl,
        show (∀ s, isRunAs (OutLine.termSignal s) = false) from fun _ => rfl,
        filter_isRunAs_nil_of OutLine.waitsFor (fun _ => rfl),
        filter_isRunAs_nil_of OutLine.dependsOn (fun _ => rfl),
        filter_isRunAs_nil_of OutLine.dependsMs (fun _ => rfl),
        filter_isRunAs_nil_of OutLine.beforeLine (fun _ => rfl),
        filter_isRunAs_nil_of OutLine.afterLine (fun _ => rfl),
        filter_isRunAs_nil_of (fun _ => OutLine.chainTo v) (fun _ => rfl)])
    all_goals try (by_cases hv : v = "dbus" <;>
      simp [hv, isRunAs, List.filter_append, apply_ite (List.filter isRunAs)])
    all_goals try (by_cases hn : v = "no" <;> simp [hn, isRunAs])
    all_goals try (rcases hpt : parse_time v with _ | t <;>
      simp [hpt, isRunAs, List.filter_append, pushOut])
    all_goals try (by_cases hinf : v = "infinity" <;>
      rcases hpt : parse_time v with _ | t <;>
      simp [hinf, hpt, isRunAs, List.filter_append, pushOut])
  · unfold emitPair stepHalt
    rw [if_pos hm, if_pos hm]
    have hT : k ≠ "Type" := fun he => hm (he ▸ (by decide : ("Type" : String) ∈ systemd_ref_map))
    have hU : k ≠ "User" := fun he => hm (he ▸ (by decide : ("User" : String) ∈ systemd_ref_map))
    simp [hT, hU]

/-- A translation step's halt outcome is `stepHalt` of its pair. -/
lemma emitPair_snd (uf : String) (vs : List Pair) (st : TState) (val : Pair) :
    (emitPair uf vs st val).2 = stepHalt val :=
  (emitPair_props uf vs st val).1

/-- The `Type=dbus` arm writes nothing and exits (`os._exit(1)`). -/
lemma emitPair_dbus (uf : String) (vs : List Pair) (st : TState) :
    emitPair uf vs st ("Type", "dbus") = (st, some Halt.exit) := by
  simp [emitPair, systemd_ref_map]

/-- Runs over pairs on which no step halts do not halt. -/
lemma runVals_nohalt (uf : String) (full : List Pair) :
    ∀ (vs : List Pair) (st : TState), (∀ p ∈ vs, stepHalt p = none) →
      (runVals uf full st vs).2 = none := by
  intro vs
  induction vs with
  | nil => intro st _; rfl
  | cons p rest ih =>
    intro st h
    have hb : (emitPair uf full st p).2 = none := by
      rw [emitPair_snd]
      exact h p (List.mem_cons_self p rest)
    simp only [runVals]
    simp only [hb]
    exact ih _ (fun q hq => h q (List.mem_cons_of_mem p hq))

/-- Running the loop over a list whose `Type=dbus` pair follows a prefix
`vs1` on which no step halts processes exactly `vs1`, then stops with the
`os._exit` outcome and the state reached after `vs1` (the dbus arm writes
nothing). -/
lemma runVals_append_dbus (uf : String) (full vs2 : List Pair) :
    ∀ (vs1 : List Pair) (st : TState), (∀ p ∈ vs1, stepHalt p = none) →
      runVals uf full st (vs1 ++ ("Type", "dbus") :: vs2)
        = ((runVals uf full st vs1).1, some Halt.exit) := by
  intro vs1
  induction vs1 with
  | nil =>
    intro st _
    simp [runVals, emitPair_dbus uf full st]
  | cons p rest ih =>
    intro st h
    have hb : (emitPair uf full st p).2 = none := by
      rw [emitPair_snd]
      exact h p (List.mem_cons_self p rest)
    simp only [List.cons_append, runVals]
    simp only [hb]
    exact ih _ (fun q hq => h q (List.mem_cons_of_mem p hq))

/-- Over a list with no `Type` key and no halting pair, the loop completes,
never touches `has_type`, and leaves `is_pidfile` at its initial value
or 2. -/
lemma runVals_noType (uf : String) (full : List Pair) :
    ∀ (vs : List Pair) (st : TState), (∀ p ∈ vs, p.1 ≠ "Type") →
      (∀ p ∈ vs, stepHalt p = none) →
      (runVals uf full st vs).2 = none ∧
      (runVals uf full st vs).1.has_type = st.has_type ∧
      ((runVals uf full st vs).1.is_pidfile = st.is_pidfile ∨
        (runVals uf full st vs).1.is_pidfile = 2) := by
  intro vs
  induction vs with
  | nil => intro st _ _; exact ⟨rfl, rfl, Or.inl rfl⟩
  | cons p rest ih =>
    intro st h hns
    have hpT : p.1 ≠ "Type" := h p (List.mem_cons_self p rest)
    have hprops := emitPair_props uf full st p
    have hb : (emitPair uf full st p).2 = none := by
      rw [emitPair_snd]
      exact hns p (List.mem_cons_self p rest)
    have hht := hprops.2.1 hpT
    have hpf := hprops.2.2.1 hpT
    simp only [runVals]
    simp only [hb]
    obtain ⟨ih1, ih2, ih3⟩ := ih (emitPair uf full st p).1
      (fun q hq => h q (List.mem_cons_of_mem p hq))
      (fun q hq => hns q (List.mem_cons_of_mem p hq))
    refine ⟨ih1, by rw [ih2, hht], ?_⟩
    rcases ih3 with h' | h'
    · rw [h']
      exact hpf
    · exact Or.inr h'

/-- The `run-as` lines produced by a run in which no step halts are exactly
one line per `User` pair, in order, each carrying `userStr` of that pair's
value. -/
lemma runVals_filter_runAs (uf : String) (full : List Pair) :
    ∀ (vs : List Pair) (st : TState), (∀ p ∈ vs, stepHalt p = none) →
      (runVals uf full st vs).1.out.filter isRunAs
        = st.out.filter isRunAs ++
          (vs.filter (fun p => p.1 == "User")).map
            (fun p => OutLine.runAs (userStr p.2 full)) := by
  intro vs
  induction vs with
  | nil => intro st _; simp [runVals]
  | cons p rest ih =>
    intro st h
    have hb : (emitPair uf full st p).2 = none := by
      rw [emitPair_snd]
      exact h p (List.mem_cons_self p rest)
    simp only [runVals]
    simp only [hb]
    rw [ih _ (fun q hq => h q (List.mem_cons_of_mem p hq))]
    rw [(emitPair_props uf full st p).2.2.2]
    by_cases hU : p.1 = "User" <;>
      simp [hU, List.filter_cons, List.append_assoc]

/-- `STR` after the `User`-case scan equals the user value alone when no
`Group` pair exists, and `user:group` with the LAST `Group` value otherwise. -/
lemma userStr_eq (u : String) (vs : List Pair) :
    userStr u vs
      = ((vs.filter (fun p => p.1 == "Group")).getLast?).elim u (fun g => u ++ ":" ++ g.2) := by
  induction vs using List.reverseRecOn with
  | nil => rfl
  | append_singleton l p ih =>
    unfold userStr at ih ⊢
    rw [List.foldl_append]
    simp only [List.foldl_cons, List.foldl_nil]
    by_cases hp : p.1 = "Group"
    · rw [if_pos hp]
      have hfp : List.filter (fun q => q.1 == "Group") [p] = [p] := by simp [hp]
      rw [List.filter_append, hfp, List.getLast?_concat]
      rfl
    · rw [if_neg hp]
      have hfp : List.filter (fun q => q.1 == "Group") [p] = [] := by simp [hp]
      rw [List.filter_append, hfp, List.append_nil]
      exact ih

/-- The `run-as` lines of a completed conversion are exactly one line per
`User` pair (the trailing default-type, comment and warning lines are never
`run-as` lines). -/
lemma convert_filter_runAs (uf : String) (cs : List String) (vs : List Pair)
    (hns : ∀ p ∈ vs, stepHalt p = none) :
    (convert uf cs vs).1.filter isRunAs
      = (vs.filter (fun p => p.1 == "User")).map
          (fun p => OutLine.runAs (userStr p.2 vs)) := by
  unfold convert
  rcases hrv : runVals uf vs initState vs with ⟨st, ex⟩
  have hex : ex = none := by
    have h' := runVals_nohalt uf vs vs initState hns
    rw [hrv] at h'
    exact h'
  subst hex
  have hfl := runVals_filter_runAs uf vs vs initState hns
  rw [hrv] at hfl
  simp only [initState, List.filter_nil, List.nil_append] at hfl
  dsimp only
  split_ifs <;>
    simp [List.filter_append, isRunAs,
      filter_isRunAs_nil_of OutLine.commentLine (fun _ => rfl), hfl]

/-- `float()` on a nonempty digit string is its numeric value. -/
lemma pyFloat_digits (s : String) (n : Nat)
    (h1 : s.data ≠ [] ∧ s.data.all Char.isDigit) (h2 : natOfDigits s.data = n) :
    pyFloat s = some ((n : ℚ)) := by
  unfold pyFloat
  rw [if_pos h1, h2]

/-! ## Claims -/

/-- C1. The claim states that for duration strings made of recognized
`magnitude ++ tag` segments, `parse_time` returns the sum of each segment's
own magnitude times its tag's factor, with `"1h30m" = 5400`, `"90s" = 90`,
`"2d 12h" = 216000`. The code disagrees on every multi-segment input: the
conversion loop multiplies `float(mem)` — the final leftover magnitude
accumulator, which is moreover never reset between segments — instead of the
segment's own magnitude `item[1]`. This theorem evaluates the code at the
claim's own examples: `"1h30m"` yields 475800 (both segments use magnitude
130) and `"2d 12h"` yields 19080000 (both use 212), not the claimed values;
only the single-segment `"90s"` gives the claimed 90. -/
theorem c1_parse_time_uses_leftover_mem :
    parse_time "1h30m" = some (.num 475800) ∧
    parse_time "2d 12h" = some (.num 19080000) ∧
    parse_time "90s" = some (.num 90) := by
  refine ⟨?_, ?_, ?_⟩
  · unfold parse_time
    rw [if_neg (by decide)]
    rw [show timeScan "1h30m".data [] [] false []
        = ([("h", "1"), ("m", "130")], "130") from by decide]
    simp only [List.foldl, convStep]
    rw [pyFloat_digits "130" 130 (by decide) (by decide)]
    norm_num
  · unfold parse_time
    rw [if_neg (by decide)]
    rw [show timeScan "2d 12h".data [] [] false []
        = ([("d", "2"), ("h", "212")], "212") from by decide]
    simp only [List.foldl, convStep]
    rw [pyFloat_digits "212" 212 (by decide) (by decide)]
    norm_num
  · unfold parse_time
    rw [if_neg (by decide)]
    rw [show timeScan "90s".data [] [] false []
        = ([("s", "90")], "90") from by decide]
    simp only [List.foldl, convStep]
    rw [pyFloat_digits "90" 90 (by decide) (by decide)]
    norm_num

/-- C2. The claim states that the reader pairs the trimmed text left of the
FIRST `=` with the trimmed remainder of the line. The code instead resets
`name` at every `=`, so on the line `a=b=c` it produces the pair
`("b", "c")` — splitting at the last `=` — and not the claimed
`("a", "b=c")`. -/
theorem c2_reader_splits_at_last_eq :
    readUnit ["a=b=c\n"] = ([], [("b", "c")]) ∧
    readUnit ["a=b=c\n"] ≠ ([], [("a", "b=c")]) :=
  ⟨by decide, by decide⟩

/-- C3. The claim states that whenever both `Type=forking` and a `PIDFile`
pair are present, in either order, the missing-pid-file warning comment is
absent. The code violates this when `PIDFile` precedes `Type=forking`: the
forking arm unconditionally resets the tri-state to 1, so the warning
comment is appended even though a `pid-file =` line was written (first
conjunct). With the opposite order the claim's expectation holds (second
conjunct). -/
theorem c3_pidfile_before_forking_warns :
    convert "u" [] [("PIDFile", "/run/x.pid"), ("Type", "forking")] =
      ([.pidFile "/run/x.pid", .typeLine "bgprocess", .missingPidWarning], none) ∧
    convert "u" [] [("Type", "forking"), ("PIDFile", "/run/x.pid")] =
      ([.typeLine "bgprocess", .pidFile "/run/x.pid"], none) :=
  ⟨by decide, by decide⟩

/-- C4. The claim states that an `UpHolds` pair is translated into one
`waits-for =` line per token, like `Wants`. In the code the reference list
spells the key `"Upholds"` while the dispatch arm spells it `"UpHolds"`, so
a pair with key `UpHolds` fails the membership check and is skipped as
unknown (first conjunct: only the default type line is emitted), a pair with
key `Upholds` passes the membership check but falls to the not-implemented
branch (second conjunct), and only `Wants` produces the waits-for lines
(third conjunct). -/
theorem c4_upholds_not_translated :
    convert "u" [] [("UpHolds", "a.service b.service")] = ([.typeLine "process"], none) ∧
    convert "u" [] [("Upholds", "a.service b.service")] = ([.typeLine "process"], none) ∧
    convert "u" [] [("Wants", "a.service b.service")] =
      ([.waitsFor "a.service", .waitsFor "b.service", .typeLine "process"], none) :=
  ⟨by decide, by decide, by decide⟩

/-- C6, counterexample. The claim states that a file whose only `Type`
values are unrecognized ones still gets the default `type = process` line.
In the code `has_type = True` runs for every non-dbus `Type` pair, matched
or not, so `Type=garbage` suppresses the default: the output is empty and in
particular contains no `type = process` line. -/
theorem c6_unrecognized_type_counterexample :
    convert "u" [] [("Type", "garbage")] = ([], none) ∧
    OutLine.typeLine "process" ∉ (convert "u" [] [("Type", "garbage")]).1 :=
  ⟨by decide, by decide⟩

/-- C8. An `OnSuccess` pair whose value splits (Python `split(" ")`) into
`n` tokens makes the translator write exactly `n` `chain-to =` lines, each
carrying the entire original value string (`val[1]`), not the per-token
value. -/
theorem c8_onsuccess_whole_value_lines (uf : String) (vs : List Pair)
    (st : TState) (v : String) :
    (emitPair uf vs st ("OnSuccess", v)).1.out
      = st.out ++ List.replicate (pySplitSp v).length (OutLine.chainTo v) := by
  unfold emitPair
  simp [pushOut, List.map_const', show "OnSuccess" ∈ systemd_ref_map from by decide]

/-- C9. `parse_time` is the identity on purely numeric input: a nonempty
all-digit string is returned unchanged, with no unit conversion applied. -/
theorem c9_numeric_identity (s : String) (h1 : s ≠ "") (h2 : ∀ c ∈ s.data, c.isDigit) :
    parse_time s = some (.str s) := by
  have hd : s.data ≠ [] := by
    intro hnil
    apply h1
    cases s with
    | mk d => simp only at hnil; rw [hnil]
  unfold parse_time
  rw [if_pos ⟨hd, by rw [List.all_eq_true]; exact h2⟩]

/-- Witness for C9 at the concrete input `"90"`. -/
theorem c9_numeric_identity_witness : parse_time "90" = some (.str "90") :=
  c9_numeric_identity "90" (by decide) (by decide)

/-- C5. A source file containing a `Type=dbus` pair (here decomposed as a
prefix `vs1` on which no step halts — neither an earlier dbus exit nor an
uncaught ValueError from a time arm — the pair, and an arbitrary tail `vs2`)
terminates at that pair with the `os._exit(1)` failure outcome: the written
output is exactly what the prefix produced — no line for the dbus pair
itself, none for any later pair, and none of the trailing lines (default
type, relocated comments, pid-file warning). -/
theorem c5_dbus_exits_immediately (uf : String) (cs : List String) (vs1 vs2 : List Pair)
    (h : ∀ p ∈ vs1, stepHalt p = none) :
    convert uf cs (vs1 ++ ("Type", "dbus") :: vs2)
      = ((runVals uf (vs1 ++ ("Type", "dbus") :: vs2) initState vs1).1.out,
         some Halt.exit) := by
  unfold convert
  rw [runVals_append_dbus uf (vs1 ++ ("Type", "dbus") :: vs2) vs2 vs1 initState h]

/-- Witness for C5: a concrete file whose dbus pair sits between a
Description pair and an ExecStart pair keeps only the Description line. -/
theorem c5_dbus_exits_immediately_witness :
    convert "u" ["#c\n"] ([("Description", "d")] ++ ("Type", "dbus") :: [("ExecStart", "/bin/x")])
      = ([.description "d"], some Halt.exit) := by
  rw [c5_dbus_exits_immediately "u" ["#c\n"] [("Description", "d")] [("ExecStart", "/bin/x")]
    (by decide)]
  decide

/-- C6, amended. The default only fires when NO pair has key `Type`: for a
run that completes (no pair halts the program; without a `Type` key that
means no time pair raises the uncaught ValueError) the translator appends
`type = process` after all pair output and before the relocated comments,
and the missing-pid-file warning cannot occur (the tri-state never reaches 1
without a `Type` pair). A `Type` pair with an unrecognized value instead
sets `has_type` and suppresses the default while writing no type line (see
the counterexample). -/
theorem c6_default_type_when_no_type_key (uf : String) (cs : List String) (vs : List Pair)
    (h : ∀ p ∈ vs, p.1 ≠ "Type") (hns : ∀ p ∈ vs, stepHalt p = none) :
    convert uf cs vs
      = ((runVals uf vs initState vs).1.out ++ [OutLine.typeLine "process"]
          ++ cs.map OutLine.commentLine, none) := by
  obtain ⟨hex, hht, hpf⟩ := runVals_noType uf vs vs initState h hns
  unfold convert
  rcases hrv : runVals uf vs initState vs with ⟨st, ex⟩
  rw [hrv] at hex hht hpf
  have hex' : ex = none := hex
  subst hex'
  have hht' : st.has_type = false := hht
  have hpf1 : st.is_pidfile ≠ 1 := by
    rcases hpf with h' | h' <;> rw [h'] <;> simp [initState]
  dsimp only
  simp [hht', hpf1, List.append_assoc]

/-- Witness for C6 at a concrete file with a single ExecStart pair. -/
theorem c6_default_type_when_no_type_key_witness :
    convert "u" ["#c\n"] [("ExecStart", "/bin/x")]
      = ([.command "/bin/x", .typeLine "process", .commentLine "#c\n"], none) := by
  rw [c6_default_type_when_no_type_key "u" ["#c\n"] [("ExecStart", "/bin/x")]
    (by decide) (by decide)]
  decide

/-- C7. A file with exactly one `User=alice` pair and exactly one
`Group=staff` pair (in either relative order — the hypotheses do not
constrain positions) whose run completes (no pair halts the program: no
`Type=dbus` exit and no uncaught ValueError from a time pair) produces
exactly one `run-as` line, namely `run-as = alice:staff`; and the `Group`
pair itself writes nothing (second conjunct). -/
theorem c7_user_group_any_order (uf : String) (cs : List String) (vs : List Pair)
    (hU : vs.filter (fun p => p.1 == "User") = [("User", "alice")])
    (hG : vs.filter (fun p => p.1 == "Group") = [("Group", "staff")])
    (hns : ∀ p ∈ vs, stepHalt p = none) :
    (convert uf cs vs).1.filter isRunAs = [OutLine.runAs "alice:staff"] ∧
    (∀ (st : TState) (v : String), (emitPair uf vs st ("Group", v)).1.out = st.out) := by
  constructor
  · rw [convert_filter_runAs uf cs vs hns, hU]
    simp only [List.map_cons, List.map_nil]
    rw [userStr_eq "alice" vs, hG]
    rfl
  · intro st v
    simp [emitPair, systemd_ref_map]

/-- Witness for C7 with the Group pair first. -/
theorem c7_user_group_any_order_witness :
    (convert "u" [] [("Group", "staff"), ("User", "alice")]).1.filter isRunAs
      = [OutLine.runAs "alice:staff"] :=
  (c7_user_group_any_order "u" [] [("Group", "staff"), ("User", "alice")]
    (by decide) (by decide) (by decide)).1

/-- C10. In a file with at least one `User` pair and two or more `Group`
pairs, whose run completes (no pair halts the program: no `Type=dbus` exit
and no uncaught ValueError from a time pair), every `User` pair emits its
own `run-as` line, in file order, and each such line uses the value of the
LAST `Group` pair in file order — the scan over all pairs overwrites
earlier `Group` matches. -/
theorem c10_last_group_wins (uf : String) (cs : List String) (vs : List Pair) (g : Pair)
    (hG2 : 2 ≤ (vs.filter (fun p => p.1 == "Group")).length)
    (hGl : (vs.filter (fun p => p.1 == "Group")).getLast? = some g)
    (hU : 1 ≤ (vs.filter (fun p => p.1 == "User")).length)
    (hns : ∀ p ∈ vs, stepHalt p = none) :
    (convert uf cs vs).1.filter isRunAs
      = (vs.filter (fun p => p.1 == "User")).map
          (fun p => OutLine.runAs (p.2 ++ ":" ++ g.2)) := by
  rw [convert_filter_runAs uf cs vs hns]
  apply List.map_congr_left
  intro p _
  rw [userStr_eq p.2 vs, hGl]
  rfl

/-- Witness for C10: two User pairs and two Group pairs; both run-as lines
use the last group `g2`. -/
theorem c10_last_group_wins_witness :
    (convert "u" [] [("User", "alice"), ("Group", "g1"), ("User", "bob"), ("Group", "g2")]).1.filter
        isRunAs
      = [OutLine.runAs "alice:g2", OutLine.runAs "bob:g2"] := by
  rw [c10_last_group_wins "u" []
    [("User", "alice"), ("Group", "g1"), ("User", "bob"), ("Group", "g2")] ("Group", "g2")
    (by decide) (by decide) (by decide) (by decide)]
  decide

end UnitToSrv
